import Mathlib

set_option maxHeartbeats 1600000

/-
Verification of the batch PDF-invoice ingestion pipeline
(src/controllers/pdfController.js and src/services/pdfProcessor.js).

The JavaScript source is shallowly embedded: JS strings become `String`,
JS numbers become `Rat` (with `Option Rat` for number-or-null slots),
dynamically typed JSON values become the inductive `JVal`, and fallible
external collaborators (MongoDB lookups, the `crypto` hash stream, `new
RegExp`, the OpenAI call) become `Except`-valued parameters so that the
try/catch structure of the source is modelled explicitly.
-/

/-! ## String helpers shared by several components -/

/-- jsToLowerCase models `String.prototype.toLowerCase` (ASCII range,
which covers every needle the source compares against). -/
def jsToLowerCase (s : String) : String := ⟨s.data.map Char.toLower⟩

/-- listIsPrefixOf decides whether the first list is a prefix of the second. -/
def listIsPrefixOf : List Char → List Char → Bool
  | [], _ => true
  | _ :: _, [] => false
  | a :: as, b :: bs => a == b && listIsPrefixOf as bs

/-- listIsInfixOf decides whether the first list occurs as a contiguous
run inside the second. -/
def listIsInfixOf (needle : List Char) : List Char → Bool
  | [] => listIsPrefixOf needle []
  | b :: bs => listIsPrefixOf needle (b :: bs) || listIsInfixOf needle bs

/-- strIncludes models `String.prototype.includes hay.includes(needle)`:
a substring test. -/
def strIncludes (hay needle : String) : Bool := listIsInfixOf needle.data hay.data

theorem listIsPrefixOf_iff (l₁ l₂ : List Char) :
    listIsPrefixOf l₁ l₂ = true ↔ l₁ <+: l₂ := by
  induction l₁ generalizing l₂ with
  | nil => simp [listIsPrefixOf]
  | cons a as ih =>
    cases l₂ with
    | nil => simp [listIsPrefixOf]
    | cons b bs => simp [listIsPrefixOf, List.cons_prefix_cons, ih]

theorem listIsInfixOf_iff (l₁ l₂ : List Char) :
    listIsInfixOf l₁ l₂ = true ↔ l₁ <:+: l₂ := by
  induction l₂ with
  | nil => simp [listIsInfixOf, listIsPrefixOf_iff]
  | cons b bs ih =>
    simp [listIsInfixOf, listIsPrefixOf_iff, ih, List.infix_cons_iff]

/-! ## PlatformClassifier (src/services/pdfProcessor.js, detectPlatform) -/

/-- detectPlatform is the embedding of `PdfProcessor.detectPlatform`
(src/services/pdfProcessor.js lines 74-90): lowercase the text, then test
the platform rules in source order, first hit winning. -/
def detectPlatform (text : String) : String :=
  let t := jsToLowerCase text
  if strIncludes t "google ads" || strIncludes t "google invoice" then "google_ads"
  else if strIncludes t "meta" && (strIncludes t "ads" || strIncludes t "advertising") then
    "meta_ads"
  else if strIncludes t "facebook ads" then "facebook_ads"
  else if strIncludes t "instagram ads" then "instagram_ads"
  else "other"

/-- platformRules is the specification-side ordered rule list of §4.3:
google, meta, facebook, instagram, each a case-insensitive substring
predicate over the (already lowercased) text, paired with its tag. -/
def platformRules : List ((String → Bool) × String) :=
  [ (fun t => strIncludes t "google ads" || strIncludes t "google invoice", "google_ads"),
    (fun t => strIncludes t "meta" && (strIncludes t "ads" || strIncludes t "advertising"),
      "meta_ads"),
    (fun t => strIncludes t "facebook ads", "facebook_ads"),
    (fun t => strIncludes t "instagram ads", "instagram_ads") ]

/-- firstRuleHit evaluates an ordered rule list with the first matching
rule winning and default tag "other" — the evaluation order the spec
describes for the platform classifier. -/
def firstRuleHit : List ((String → Bool) × String) → String → String
  | [], _ => "other"
  | (p, tag) :: rest, t => if p t then tag else firstRuleHit rest t

theorem listIsInfixOf_map_toLower (l₁ l₂ : List Char)
    (h : listIsInfixOf l₁ l₂ = true) :
    listIsInfixOf (l₁.map Char.toLower) (l₂.map Char.toLower) = true := by
  rw [listIsInfixOf_iff] at h ⊢
  obtain ⟨s, t, rfl⟩ := h
  exact ⟨s.map Char.toLower, t.map Char.toLower, by simp⟩

/-- C9: platform classification applies the case-insensitive substring
rules in the fixed priority order google, meta, facebook, instagram,
other, first match winning; any text containing "Google Ads" (even one
also containing "Meta") classifies as google_ads; and every text
classifies to exactly one of the five platform tags. -/
theorem c9_platform_classification (text : String) :
    detectPlatform text = firstRuleHit platformRules (jsToLowerCase text) ∧
    (strIncludes text "Google Ads" = true → detectPlatform text = "google_ads") ∧
    detectPlatform text ∈
      ["google_ads", "meta_ads", "facebook_ads", "instagram_ads", "other"] := by
  refine ⟨rfl, ?_, ?_⟩
  · intro h
    have h2 : strIncludes (jsToLowerCase text) "google ads" = true := by
      have h3 := listIsInfixOf_map_toLower ("Google Ads".data) text.data h
      simpa [strIncludes, jsToLowerCase] using h3
    simp [detectPlatform, h2]
  · simp only [detectPlatform]
    split
    · simp
    · split
      · simp
      · split
        · simp
        · split <;> simp

/-- Witness for C9 at a concrete input: the text contains both
"Google Ads" and "Meta" yet classifies as google_ads. -/
theorem c9_platform_classification_witness :
    strIncludes "Invoice from Google Ads and Meta advertising" "Google Ads" = true ∧
    detectPlatform "Invoice from Google Ads and Meta advertising" = "google_ads" :=
  ⟨by decide,
   (c9_platform_classification "Invoice from Google Ads and Meta advertising").2.1
     (by decide)⟩

/-! ## Batch post-processing of extracted data
(src/controllers/pdfController.js lines 527-550) -/

/-- jsRound2 models `parseFloat(x.toFixed(2))`: rounding a number to two
decimal places (ties rounded up, matching `round` on exact rationals). -/
def jsRound2 (x : Rat) : Rat := ((round (x * 100) : ℤ) : Rat) / 100

/-- truthyQ models JavaScript truthiness of a number-or-null slot:
`null`/`undefined` and `0` are falsy, every other number is truthy. -/
def truthyQ : Option Rat → Bool
  | none => false
  | some q => q != 0

/-- PostData carries the fields of `extractedData` read by the
post-processing block: the three monetary totals and the `amount` field
of each campaign line item. -/
structure PostData where
  subtotal : Option Rat
  totalAmount : Option Rat
  taxAmount : Option Rat
  campaigns : List (Option Rat)

/-- campaignSum models
`data.campaigns.reduce((sum, c) => sum + (c.amount || 0), 0)`. -/
def campaignSum (l : List (Option Rat)) : Rat :=
  l.foldl (fun s c => s + c.getD 0) 0

/-- postProcess is the embedding of the post-processing block of
`uploadPdfs` (src/controllers/pdfController.js lines 535-545): derive a
missing subtotal from totalAmount − taxAmount, a missing totalAmount
from subtotal + taxAmount, and a still-missing-or-zero subtotal from the
campaign amounts; the guards are JavaScript truthiness tests. -/
def postProcess (d : PostData) : PostData :=
  let s1 : Option Rat :=
    if !truthyQ d.subtotal && truthyQ d.totalAmount && truthyQ d.taxAmount then
      some (jsRound2 (d.totalAmount.getD 0 - d.taxAmount.getD 0))
    else d.subtotal
  let t1 : Option Rat :=
    if !truthyQ d.totalAmount && truthyQ s1 && truthyQ d.taxAmount then
      some (jsRound2 (s1.getD 0 + d.taxAmount.getD 0))
    else d.totalAmount
  let s2 : Option Rat :=
    if !truthyQ s1 && !d.campaigns.isEmpty then some (campaignSum d.campaigns)
    else s1
  { subtotal := s2, totalAmount := t1, taxAmount := d.taxAmount,
    campaigns := d.campaigns }

/-- Counterexample to C6 as stated: with `subtotal` absent while
`totalAmount = 1000` and `taxAmount = 0` are both present, the claim
demands `subtotal = round2(1000 − 0) = 1000.00`, but the code's guard
tests JavaScript truthiness, a present-but-zero `taxAmount` is falsy,
and the subtotal is left null. -/
theorem c6_counterexample :
    (postProcess ⟨none, some 1000, some 0, []⟩).subtotal = none ∧
    some (jsRound2 ((1000 : Rat) - 0)) = some (1000 : Rat) ∧
    (none : Option Rat) ≠ some (1000 : Rat) := by
  refine ⟨by decide, ?_, by decide⟩
  norm_num [jsRound2]

/-- C6 amended: the derivations fire on JavaScript-truthy guards —
`subtotal` absent or zero while `totalAmount` and `taxAmount` are
present AND nonzero derives `subtotal = round2(total − tax)` (a derived
zero subtotal is in turn replaced by the campaign-amount sum when
campaign line items exist); symmetrically for `totalAmount`; and a
subtotal that is still absent or zero is replaced by the sum of the
campaign amounts when campaigns exist; `1000 − 180` gives `820.00`. -/
theorem c6_amended :
    (∀ (d : PostData) (t x : Rat),
      truthyQ d.subtotal = false → d.totalAmount = some t → d.taxAmount = some x →
      t ≠ 0 → x ≠ 0 →
      (postProcess d).subtotal =
        some (if jsRound2 (t - x) = 0 ∧ d.campaigns.isEmpty = false then
                campaignSum d.campaigns
              else jsRound2 (t - x))) ∧
    (∀ (d : PostData) (s x : Rat),
      truthyQ d.totalAmount = false → d.subtotal = some s → s ≠ 0 →
      d.taxAmount = some x → x ≠ 0 →
      (postProcess d).totalAmount = some (jsRound2 (s + x))) ∧
    (∀ d : PostData,
      truthyQ d.subtotal = false →
      (truthyQ d.totalAmount = false ∨ truthyQ d.taxAmount = false) →
      d.campaigns.isEmpty = false →
      (postProcess d).subtotal = some (campaignSum d.campaigns)) ∧
    (postProcess ⟨none, some 1000, some 180, []⟩).subtotal = some 820 := by
  refine ⟨?_, ?_, ?_, ?_⟩
  · intro d t x hs ht hx ht0 hx0
    simp only [postProcess]
    have hg1 : (!truthyQ d.subtotal && truthyQ d.totalAmount &&
        truthyQ d.taxAmount) = true := by
      rw [hs, ht, hx]; simp [truthyQ, ht0, hx0]
    rw [hg1, if_pos rfl, ht, hx]
    simp only [Option.getD_some]
    by_cases hz : jsRound2 (t - x) = 0
    · have htr : truthyQ (some (jsRound2 (t - x))) = false := by
        simp [truthyQ, hz]
      rw [htr]
      cases hemp : d.campaigns.isEmpty with
      | false => simp [hz]
      | true => simp
    · have htr : truthyQ (some (jsRound2 (t - x))) = true := by
        simp [truthyQ, hz]
      rw [htr]
      simp [hz]
  · intro d s x ht hsub hs0 hx hx0
    simp only [postProcess]
    have hg1 : (!truthyQ d.subtotal && truthyQ d.totalAmount &&
        truthyQ d.taxAmount) = false := by
      rw [ht]; simp
    rw [hg1, if_neg Bool.false_ne_true, ht, hsub, hx]
    have hs1 : truthyQ (some s) = true := by simp [truthyQ, hs0]
    have hx1 : truthyQ (some x) = true := by simp [truthyQ, hx0]
    rw [hs1, hx1]
    simp
  · intro d hs hor hemp
    have hg1 : (!truthyQ d.subtotal && truthyQ d.totalAmount &&
        truthyQ d.taxAmount) = false := by
      rcases hor with h | h <;> simp [h]
    have hg3 : (!truthyQ d.subtotal && !d.campaigns.isEmpty) = true := by
      rw [hs, hemp]; simp
    simp only [postProcess, hg1, Bool.false_eq_true, if_false, hg3, if_true]
  · norm_num [postProcess, truthyQ, campaignSum, jsRound2]

/-- Witness for C6 amended at the spec's own example: totalAmount 1000,
taxAmount 180, subtotal absent, no campaigns — subtotal becomes 820. -/
theorem c6_amended_witness :
    (postProcess ⟨none, some 1000, some 180, []⟩).subtotal = some 820 := by
  have h := c6_amended.1 ⟨none, some 1000, some 180, []⟩ 1000 180
    (by decide) rfl rfl (by norm_num) (by norm_num)
  have h2 : jsRound2 ((1000 : Rat) - 180) = 820 := by norm_num [jsRound2]
  simpa [h2] using h

/-! ## FieldExtractor data model (src/services/pdfProcessor.js)

JavaScript's dynamically typed JSON values are embedded as `JVal`.  The
external library functions `parseFloat` (over strings) and `Date.parse`
are parameters `pf` and `dp`; the regular-expression helpers of
`basicExtraction` are collected in a `RegexEnv` of match oracles (one
per regex of the source), with the invoice-date regex also realised
concretely below as `googleDateMatch`. -/

/-- JVal embeds a dynamically typed JavaScript value as stored in the
extracted-data fields: null/undefined, boolean, number, string, or a
`Date` object (carried as milliseconds since the epoch). -/
inductive JVal where
  | jnull
  | jbool (b : Bool)
  | jnum (q : Rat)
  | jstr (s : String)
  | jdate (t : Int)
deriving DecidableEq

/-- jsTruthy models JavaScript truthiness of a `JVal`. -/
def jsTruthy : JVal → Bool
  | .jnull => false
  | .jbool b => b
  | .jnum q => q != 0
  | .jstr s => s != ""
  | .jdate _ => true

/-- orNull models the idiom `x || null`. -/
def orNull (v : JVal) : JVal := if jsTruthy v then v else .jnull

/-- toNumberJ models `PdfProcessor.toNumber`: `parseFloat(val)` with a
NaN result mapped to null.  `pf` is the parseFloat model on strings;
numbers pass through and every other value parses to NaN. -/
def toNumberJ (pf : String → Option Rat) : JVal → Option Rat
  | .jnum q => some q
  | .jstr s => pf s
  | _ => none

/-- jnumOpt injects a number-or-null into `JVal`. -/
def jnumOpt : Option Rat → JVal
  | some q => .jnum q
  | none => .jnull

/-- jstrOpt injects a string-or-null into `JVal`. -/
def jstrOpt : Option String → JVal
  | some s => .jstr s
  | none => .jnull

/-- dateParseJ models `Date.parse` applied to a field value: strings go
through the `dp` oracle, a `Date` re-parses to its own time, everything
else is NaN. -/
def dateParseJ (dp : String → Option Int) : JVal → Option Int
  | .jstr s => dp s
  | .jdate t => some t
  | _ => none

/-- parseDateField models the date-validation idiom of
`validateAndFormatData`:
`(v && !isNaN(Date.parse(v))) ? new Date(v) : null`. -/
def parseDateField (dp : String → Option Int) (v : JVal) : JVal :=
  if jsTruthy v then (dateParseJ dp v).elim JVal.jnull JVal.jdate
  else .jnull

/-- Campaign is a campaign line item: the raw JSON shape and the
validated shape share this record, absent fields being null. -/
structure Campaign where
  campaignName : JVal := .jnull
  clicks : JVal := .jnull
  cpc : JVal := .jnull
  amount : JVal := .jnull
  impressions : JVal := .jnull
deriving DecidableEq

/-- InvData is the extracted-data record: the raw JSON shape, the
validated shape and the fallback-extraction shape all share it, absent
fields being null (`billingPeriod` and `campaigns` are absent-or-object
in the source, hence `Option`). -/
structure InvData where
  invoiceNumber : JVal := .jnull
  invoiceDate : JVal := .jnull
  accountId : JVal := .jnull
  accountName : JVal := .jnull
  location : JVal := .jnull
  billingPeriod : Option (JVal × JVal) := none
  subtotal : JVal := .jnull
  taxAmount : JVal := .jnull
  totalAmount : JVal := .jnull
  currency : JVal := .jnull
  campaigns : Option (List Campaign) := none
  clicks : JVal := .jnull
  impressions : JVal := .jnull
deriving DecidableEq

/-- ScanMatch is one hit of the campaign line-item regex
`/(.*?)\s+(\d+)\s+Clicks\s+₹?([\d,]+\.\d{2})/gi`: the name capture, the
click count (`parseInt` of a digit run, hence `Nat`) and the amount
(`parseFloat` of a comma-stripped decimal literal). -/
structure ScanMatch where
  name : String
  clicks : Nat
  amount : Rat
deriving DecidableEq

/-- jsIsWordChar models the `\w` character class. -/
def jsIsWordChar (c : Char) : Bool := c.isAlphanum || c == '_'

/-- jsIsSpaceChar models the `\s` character class (common whitespace). -/
def jsIsSpaceChar (c : Char) : Bool :=
  c == ' ' || c == '\t' || c == '\n' || c == '\r'

/-- jsTrim models `String.prototype.trim` (whitespace stripped from both
ends). -/
def jsTrim (s : String) : String :=
  ⟨((s.data.dropWhile jsIsSpaceChar).reverse.dropWhile jsIsSpaceChar).reverse⟩

/-- mkCampaignFromScan models one iteration of the
`PdfProcessor.extractCampaigns` loop (src/services/pdfProcessor.js lines
258-268): cpc is derived only under a `clicks > 0` guard. -/
def mkCampaignFromScan (m : ScanMatch) : Campaign :=
  { campaignName := .jstr (jsTrim m.name),
    clicks := .jnum (m.clicks : Rat),
    amount := .jnum m.amount,
    cpc := if 0 < m.clicks then .jnum (jsRound2 (m.amount / (m.clicks : Rat)))
           else .jnull }

/-- extractCampaignsModel models `PdfProcessor.extractCampaigns` given
the list of regex matches found in the text. -/
def extractCampaignsModel (ms : List ScanMatch) : List Campaign :=
  ms.map mkCampaignFromScan

/-- RegexEnv collects the regular-expression helpers of
`basicExtraction` as match oracles, one field per regex application of
the source (src/services/pdfProcessor.js lines 230-252): `extractPattern`
oracles return the matched capture, `extractMonetaryValue` /
`extractNumericValue` oracles return the parsed number. -/
structure RegexEnv where
  reInvoiceNumber : String → Option String
  reInvoiceDate : String → Option String
  reAccountId : String → Option String
  reAccountName : String → Option String
  reLocation : String → Option String
  reSubtotal : String → Option Rat
  reTax : String → Option Rat
  reTotal : String → Option Rat
  reInvoiceNumberOther : String → Option String
  reTotalOther : String → Option Rat
  reClicksOther : String → Option Nat
  reImpressionsOther : String → Option Nat
  scanCampaigns : String → List ScanMatch

/-- basicExtraction embeds `PdfProcessor.basicExtraction`
(src/services/pdfProcessor.js lines 230-252).  Pattern extractions yield
raw strings-or-null; monetary/numeric extractions yield
numbers-or-null.  Note the invoiceDate field of the google branch is a
RAW matched string, not a parsed date. -/
def basicExtraction (env : RegexEnv) (text : String) (platform : String) : InvData :=
  if platform == "google_ads" then
    { invoiceNumber := jstrOpt (env.reInvoiceNumber text),
      invoiceDate := jstrOpt (env.reInvoiceDate text),
      accountId := jstrOpt (env.reAccountId text),
      accountName := jstrOpt (env.reAccountName text),
      location := jstrOpt (env.reLocation text),
      subtotal := jnumOpt (env.reSubtotal text),
      taxAmount := jnumOpt (env.reTax text),
      totalAmount := jnumOpt (env.reTotal text),
      currency := .jstr "INR",
      campaigns := some (extractCampaignsModel (env.scanCampaigns text)) }
  else
    { invoiceNumber := jstrOpt (env.reInvoiceNumberOther text),
      totalAmount := jnumOpt (env.reTotalOther text),
      clicks := jnumOpt ((env.reClicksOther text).map (fun n => (n : Rat))),
      impressions := jnumOpt ((env.reImpressionsOther text).map (fun n => (n : Rat))) }

/-- mkCampaignFromJson models one iteration of the `forEach` over JSON
campaigns in `validateAndFormatData` (src/services/pdfProcessor.js lines
201-219): amounts and clicks are coerced via `toNumber`; for google the
cpc is derived under a JavaScript-truthiness guard on both clicks and
amount; for meta the impressions are coerced. -/
def mkCampaignFromJson (pf : String → Option Rat) (platform : String)
    (c : Campaign) : Campaign :=
  let amount := toNumberJ pf c.amount
  if platform == "google_ads" then
    let clicks := toNumberJ pf c.clicks
    { campaignName := orNull c.campaignName,
      amount := jnumOpt amount,
      clicks := jnumOpt clicks,
      cpc := if truthyQ clicks && truthyQ amount then
               .jnum (jsRound2 (amount.getD 0 / clicks.getD 0))
             else .jnull }
  else if platform == "meta_ads" then
    { campaignName := orNull c.campaignName,
      amount := jnumOpt amount,
      impressions := jnumOpt (toNumberJ pf c.impressions) }
  else
    { campaignName := orNull c.campaignName,
      amount := jnumOpt amount }

/-- validateAndFormatData embeds `PdfProcessor.validateAndFormatData`
(src/services/pdfProcessor.js lines 175-228): dates parsed-or-null,
numerics coerced via `toNumber`, campaigns validated item-wise with a
google fallback to the line-item scan when the JSON carried none. -/
def validateAndFormatData (pf : String → Option Rat) (dp : String → Option Int)
    (env : RegexEnv) (data : InvData) (platform : String) (text : String) : InvData :=
  { invoiceNumber := orNull data.invoiceNumber,
    invoiceDate := parseDateField dp data.invoiceDate,
    accountId := orNull data.accountId,
    accountName := orNull data.accountName,
    location := orNull data.location,
    billingPeriod :=
      match data.billingPeriod with
      | none => none
      | some (sd, ed) => some (parseDateField dp sd, parseDateField dp ed),
    subtotal := jnumOpt (toNumberJ pf data.subtotal),
    taxAmount := jnumOpt (toNumberJ pf data.taxAmount),
    totalAmount := jnumOpt (toNumberJ pf data.totalAmount),
    currency := if jsTruthy data.currency then data.currency else .jstr "INR",
    campaigns :=
      some (match data.campaigns with
            | some (c :: cs) => (c :: cs).map (mkCampaignFromJson pf platform)
            | _ =>
              if platform == "google_ads" then
                extractCampaignsModel (env.scanCampaigns text)
              else []) }

/-- LlmOutcome is the observable outcome of the generative tier:
the service call succeeded and its body parsed as JSON (`success (some
d)`), succeeded but the body was invalid JSON (`success none`), or the
call itself threw (`failure`). -/
inductive LlmOutcome where
  | success (parsed : Option InvData)
  | failure (msg : String)

/-- extractInvoiceData embeds `PdfProcessor.extractInvoiceData`
(src/services/pdfProcessor.js lines 92-113): JSON-parse failure falls
back to `basicExtraction` and is then validated; a service-call failure
returns the raw `basicExtraction` result WITHOUT validation. -/
def extractInvoiceData (pf : String → Option Rat) (dp : String → Option Int)
    (env : RegexEnv) (llm : LlmOutcome) (text : String) (platform : String) : InvData :=
  match llm with
  | .success (some d) => validateAndFormatData pf dp env d platform text
  | .success none =>
      validateAndFormatData pf dp env (basicExtraction env text platform) platform text
  | .failure _ => basicExtraction env text platform

/-! ## Concrete realisation of the invoice-date regex
`/(\d{1,2}\s+\w+\s+20\d{2})/i` used by the google branch of
`basicExtraction`. -/

/-- matchDateTail matches `\s+\w+\s+20\d{2}` at the head of the list,
returning the consumed characters.  Maximal-run matching coincides with
the regex's greedy backtracking here because each quantified class is
disjoint from the character that must follow it. -/
def matchDateTail (cs : List Char) : Option (List Char) :=
  let sp1 := cs.takeWhile jsIsSpaceChar
  let r1 := cs.dropWhile jsIsSpaceChar
  if sp1.isEmpty then none else
  let w := r1.takeWhile jsIsWordChar
  let r2 := r1.dropWhile jsIsWordChar
  if w.isEmpty then none else
  let sp2 := r2.takeWhile jsIsSpaceChar
  let r3 := r2.dropWhile jsIsSpaceChar
  if sp2.isEmpty then none else
  match r3 with
  | '2' :: '0' :: d1 :: d2 :: _ =>
    if d1.isDigit && d2.isDigit then some (sp1 ++ w ++ sp2 ++ ['2', '0', d1, d2])
    else none
  | _ => none

/-- matchDateAt matches `\d{1,2}\s+\w+\s+20\d{2}` at the head of the
list (two digits preferred, backtracking to one). -/
def matchDateAt : List Char → Option (List Char)
  | [] => none
  | c1 :: rest =>
    if c1.isDigit then
      match rest with
      | c2 :: rest2 =>
        if c2.isDigit then
          match matchDateTail rest2 with
          | some m => some (c1 :: c2 :: m)
          | none =>
            match matchDateTail rest with
            | some m => some (c1 :: m)
            | none => none
        else
          match matchDateTail rest with
          | some m => some (c1 :: m)
          | none => none
      | [] => none
    else none

/-- searchDate finds the leftmost match of the date pattern. -/
def searchDate : List Char → Option (List Char)
  | [] => none
  | c :: cs =>
    match matchDateAt (c :: cs) with
    | some m => some m
    | none => searchDate cs

/-- googleDateMatch realises
`extractPattern(text, /(\d{1,2}\s+\w+\s+20\d{2})/i)`: the leftmost
match's first capture (the whole pattern), trimmed. -/
def googleDateMatch (s : String) : Option String :=
  (searchDate s.data).map (fun l => jsTrim ⟨l⟩)

/-- cexEnv realises the google regex oracles on texts where only the
invoice-date pattern matches: every other pattern of `basicExtraction`
requires a keyword ("Invoice number", "Account", "Subtotal in INR",
"IGST", "Total in INR", "Clicks", ...) that is absent from the
counterexample text, so those oracles return none there. -/
def cexEnv : RegexEnv :=
  { reInvoiceNumber := fun _ => none,
    reInvoiceDate := googleDateMatch,
    reAccountId := fun _ => none,
    reAccountName := fun _ => none,
    reLocation := fun _ => none,
    reSubtotal := fun _ => none,
    reTax := fun _ => none,
    reTotal := fun _ => none,
    reInvoiceNumberOther := fun _ => none,
    reTotalOther := fun _ => none,
    reClicksOther := fun _ => none,
    reImpressionsOther := fun _ => none,
    scanCampaigns := fun _ => [] }

/-! ## Field-shape predicates for C2 -/

/-- isDateOrNull holds when a field value is a parsed date or null —
never a raw string. -/
def isDateOrNull : JVal → Bool
  | .jnull => true
  | .jdate _ => true
  | _ => false

/-- isNumOrNull holds when a field value is a number or null — never a
raw string. -/
def isNumOrNull : JVal → Bool
  | .jnull => true
  | .jnum _ => true
  | _ => false

/-- campaignNumsOk: every numeric field of a campaign line item is a
number or null. -/
def campaignNumsOk (c : Campaign) : Bool :=
  isNumOrNull c.clicks && isNumOrNull c.amount && isNumOrNull c.impressions &&
    isNumOrNull c.cpc

/-- dateFieldsOk: every date field of the record is a parsed date or
null. -/
def dateFieldsOk (d : InvData) : Bool :=
  isDateOrNull d.invoiceDate &&
    (match d.billingPeriod with
     | none => true
     | some (a, b) => isDateOrNull a && isDateOrNull b)

/-- numFieldsOk: every numeric field of the record (including campaign
line items) is a number or null. -/
def numFieldsOk (d : InvData) : Bool :=
  isNumOrNull d.subtotal && isNumOrNull d.taxAmount && isNumOrNull d.totalAmount &&
    isNumOrNull d.clicks && isNumOrNull d.impressions &&
    (match d.campaigns with
     | none => true
     | some cs => cs.all campaignNumsOk)

theorem isNumOrNull_jnumOpt (o : Option Rat) : isNumOrNull (jnumOpt o) = true := by
  cases o <;> rfl

theorem isNumOrNull_jnull : isNumOrNull JVal.jnull = true := rfl

theorem isNumOrNull_ite (P : Prop) [Decidable P] (q : Rat) :
    isNumOrNull (if P then JVal.jnum q else JVal.jnull) = true := by
  split <;> rfl

theorem isDateOrNull_parseDateField (dp : String → Option Int) (v : JVal) :
    isDateOrNull (parseDateField dp v) = true := by
  unfold parseDateField
  split
  · cases dateParseJ dp v <;> rfl
  · rfl

theorem campaignNumsOk_mkJson (pf : String → Option Rat) (platform : String)
    (c : Campaign) : campaignNumsOk (mkCampaignFromJson pf platform c) = true := by
  unfold mkCampaignFromJson
  split
  · simp [campaignNumsOk, isNumOrNull_jnumOpt, isNumOrNull_ite, isNumOrNull_jnull]
  · split <;>
      simp [campaignNumsOk, isNumOrNull_jnumOpt, isNumOrNull_jnull]

theorem isNumOrNull_jnum (q : Rat) : isNumOrNull (JVal.jnum q) = true := rfl

theorem campaignNumsOk_mkScan (m : ScanMatch) :
    campaignNumsOk (mkCampaignFromScan m) = true := by
  simp [mkCampaignFromScan, campaignNumsOk, isNumOrNull_ite, isNumOrNull_jnull,
    isNumOrNull_jnum]

theorem all_campaignNumsOk_scan (ms : List ScanMatch) :
    (extractCampaignsModel ms).all campaignNumsOk = true := by
  unfold extractCampaignsModel
  rw [List.all_eq_true]
  intro x hx
  obtain ⟨m, _, rfl⟩ := List.mem_map.1 hx
  exact campaignNumsOk_mkScan m

theorem all_campaignNumsOk_mkJson (pf : String → Option Rat) (platform : String)
    (l : List Campaign) :
    (l.map (mkCampaignFromJson pf platform)).all campaignNumsOk = true := by
  rw [List.all_eq_true]
  intro x hx
  obtain ⟨m, _, rfl⟩ := List.mem_map.1 hx
  exact campaignNumsOk_mkJson pf platform m

theorem numFieldsOk_validate (pf : String → Option Rat) (dp : String → Option Int)
    (env : RegexEnv) (d : InvData) (platform text : String) :
    numFieldsOk (validateAndFormatData pf dp env d platform text) = true := by
  unfold validateAndFormatData numFieldsOk
  cases hcamp : d.campaigns with
  | none =>
    by_cases hp : (platform == "google_ads") = true <;>
      simp [isNumOrNull_jnumOpt, isNumOrNull_jnull, hp, all_campaignNumsOk_scan]
  | some l =>
    cases l with
    | nil =>
      by_cases hp : (platform == "google_ads") = true <;>
        simp [isNumOrNull_jnumOpt, isNumOrNull_jnull, hp, all_campaignNumsOk_scan]
    | cons c cs =>
      have h := all_campaignNumsOk_mkJson pf platform (c :: cs)
      simp [isNumOrNull_jnumOpt, isNumOrNull_jnull]
      simpa using h

theorem dateFieldsOk_validate (pf : String → Option Rat) (dp : String → Option Int)
    (env : RegexEnv) (d : InvData) (platform text : String) :
    dateFieldsOk (validateAndFormatData pf dp env d platform text) = true := by
  unfold validateAndFormatData dateFieldsOk
  rcases d.billingPeriod with _ | ⟨sd, ed⟩ <;>
    simp [isDateOrNull_parseDateField]

theorem numFieldsOk_basic (env : RegexEnv) (text platform : String) :
    numFieldsOk (basicExtraction env text platform) = true := by
  unfold basicExtraction numFieldsOk
  split
  · simp [isNumOrNull_jnumOpt, isNumOrNull_jnull, all_campaignNumsOk_scan]
  · simp [isNumOrNull_jnumOpt, isNumOrNull_jnull]

/-- Counterexample to C2 as stated: when the generative service call
itself fails, `extractInvoiceData` returns the raw `basicExtraction`
output without post-validation, so on a google invoice text the
invoiceDate field is the raw matched string "15 March 2024", not a
parsed date and not null. -/
theorem c2_counterexample :
    (extractInvoiceData (fun _ => none) (fun _ => none) cexEnv
        (.failure "service unavailable") "Billed on 15 March 2024"
        "google_ads").invoiceDate = JVal.jstr "15 March 2024" ∧
    isDateOrNull (JVal.jstr "15 March 2024") = false := by
  constructor
  · decide
  · decide

/-- C2 amended: in every tier the numeric fields are numbers-or-null;
the date fields are guaranteed parsed-or-null only in the tiers that go
through `validateAndFormatData` (primary, and fallback after a
JSON-parse failure) — a service-call failure returns the raw fallback
output, whose date fields may be raw strings. -/
theorem c2_amended (pf : String → Option Rat) (dp : String → Option Int)
    (env : RegexEnv) (llm : LlmOutcome) (text platform : String) :
    numFieldsOk (extractInvoiceData pf dp env llm text platform) = true ∧
    (∀ p, llm = .success p →
      dateFieldsOk (extractInvoiceData pf dp env llm text platform) = true) := by
  cases llm with
  | success parsed =>
    cases parsed with
    | none =>
      exact ⟨numFieldsOk_validate pf dp env _ platform text,
        fun _ _ => dateFieldsOk_validate pf dp env _ platform text⟩
    | some d =>
      exact ⟨numFieldsOk_validate pf dp env d platform text,
        fun _ _ => dateFieldsOk_validate pf dp env d platform text⟩
  | failure msg =>
    refine ⟨numFieldsOk_basic env text platform, ?_⟩
    intro p h
    cases h

/-- Witness for C2 amended: a JSON-parse-failure tier run on a concrete
text has both numeric and date fields well-shaped. -/
theorem c2_amended_witness :
    numFieldsOk (extractInvoiceData (fun _ => none) (fun _ => none) cexEnv
      (.success none) "Billed on 15 March 2024" "google_ads") = true ∧
    dateFieldsOk (extractInvoiceData (fun _ => none) (fun _ => none) cexEnv
      (.success none) "Billed on 15 March 2024" "google_ads") = true :=
  ⟨(c2_amended (fun _ => none) (fun _ => none) cexEnv (.success none)
      "Billed on 15 March 2024" "google_ads").1,
   (c2_amended (fun _ => none) (fun _ => none) cexEnv (.success none)
      "Billed on 15 March 2024" "google_ads").2 none rfl⟩

/-- Counterexample to C7 as stated: the generative-tier cpc guard is
JavaScript truthiness, not strict positivity — a campaign with clicks
= −5 and amount = −10 gets cpc = round2(−10 / −5) = 2, where the claim
demands null for negative values. -/
theorem c7_counterexample :
    (mkCampaignFromJson (fun _ => none) "google_ads"
        { campaignName := JVal.jstr "Brand", clicks := JVal.jnum (-5),
          amount := JVal.jnum (-10) }).cpc = JVal.jnum 2 ∧
    JVal.jnum 2 ≠ JVal.jnull := by
  constructor
  · simp [mkCampaignFromJson, toNumberJ, truthyQ]
    norm_num [jsRound2]
  · decide

/-- C7 amended: in the generative tier, cpc = round2(amount / clicks)
whenever both coerced values are non-null and nonzero (negative values
included), and null when either is null or zero; in the fallback
line-item parse, cpc = round2(amount / clicks) whenever clicks > 0
(regardless of the amount, which the pattern constrains to be
nonnegative), and null when clicks = 0. -/
theorem c7_amended (pf : String → Option Rat) :
    (∀ (c : Campaign) (k a : Rat),
      toNumberJ pf c.clicks = some k → toNumberJ pf c.amount = some a →
      k ≠ 0 → a ≠ 0 →
      (mkCampaignFromJson pf "google_ads" c).cpc = JVal.jnum (jsRound2 (a / k))) ∧
    (∀ c : Campaign,
      truthyQ (toNumberJ pf c.clicks) = false ∨
        truthyQ (toNumberJ pf c.amount) = false →
      (mkCampaignFromJson pf "google_ads" c).cpc = JVal.jnull) ∧
    (∀ m : ScanMatch, 0 < m.clicks →
      (mkCampaignFromScan m).cpc = JVal.jnum (jsRound2 (m.amount / (m.clicks : Rat)))) ∧
    (∀ m : ScanMatch, m.clicks = 0 → (mkCampaignFromScan m).cpc = JVal.jnull) := by
  refine ⟨?_, ?_, ?_, ?_⟩
  · intro c k a hk ha hk0 ha0
    simp [mkCampaignFromJson, hk, ha, truthyQ, hk0, ha0]
  · intro c h
    rcases h with h | h <;> simp [mkCampaignFromJson, h]
  · intro m h
    simp [mkCampaignFromScan, h]
  · intro m h
    simp [mkCampaignFromScan, h]

/-- Witness for C7 amended: 250 spend over 100 clicks derives a cpc. -/
theorem c7_amended_witness :
    (mkCampaignFromJson (fun _ => none) "google_ads"
        { campaignName := JVal.jstr "Brand", clicks := JVal.jnum 100,
          amount := JVal.jnum 250 }).cpc = JVal.jnum (jsRound2 (250 / 100)) :=
  (c7_amended (fun _ => none)).1
    { campaignName := JVal.jstr "Brand", clicks := JVal.jnum 100,
      amount := JVal.jnum 250 }
    100 250 rfl rfl (by norm_num) (by norm_num)

/-! ## DuplicateDetector (src/controllers/pdfController.js,
checkForDuplicates, lines 132-190) -/

/-- InvRecord is the slice of a stored Invoice document consulted by
the duplicate detector. -/
structure InvRecord where
  fileName : String
  fileHash : String
deriving DecidableEq

/-- Verdict is the object returned by `checkForDuplicates`. -/
structure Verdict where
  isDuplicate : Bool
  reason : Option String := none
  existingFile : Option InvRecord := none
  duplicateType : Option String := none
  error : Option String := none
deriving DecidableEq

/-- DupEnv packages the fallible operations consumed by
`checkForDuplicates`: the md5 digest of the candidate's stored bytes
(`calculateFileHash` can reject with a stream error), the storage
lookups (`Invoice.findOne` can reject with a database error), and the
two `new RegExp` constructions (which throw on an invalid pattern, the
candidate name being spliced in unescaped). -/
structure DupEnv where
  hashOf : Except String String
  findByHash : String → Except String (Option InvRecord)
  findByFileName : String → Except String (Option InvRecord)
  mkSimilarMatcher : String → Except String (String → Bool)
  mkExactCIMatcher : String → Except String (String → Bool)
  findByMatcher : (String → Bool) → Except String (Option InvRecord)

/-- nameWithoutExt models `originalName.replace(/\.[^/.]+$/, "")`:
strip a trailing dot-extension whose extension part is nonempty and
contains neither '.' nor '/'. -/
def nameWithoutExt (s : String) : String :=
  let rev := s.data.reverse
  let extRev := rev.takeWhile (fun c => c != '.' && c != '/')
  let rest := rev.drop extRev.length
  match rest with
  | '.' :: before => if extRev.isEmpty then s else ⟨before.reverse⟩
  | _ => s

/-- contentVerdict is the verdict object of the digest check. -/
def contentVerdict (r : InvRecord) : Verdict :=
  { isDuplicate := true,
    reason := some ("File content already exists (" ++ r.fileName ++ ")"),
    existingFile := some r, duplicateType := some "content" }

/-- filenameVerdict is the verdict object of the exact-name check. -/
def filenameVerdict (r : InvRecord) : Verdict :=
  { isDuplicate := true,
    reason := some "File with exact same name already exists",
    existingFile := some r, duplicateType := some "filename" }

/-- similarVerdict is the verdict object of the name-stem check. -/
def similarVerdict (r : InvRecord) : Verdict :=
  { isDuplicate := true,
    reason := some ("File with similar name already exists (" ++ r.fileName ++ ")"),
    existingFile := some r, duplicateType := some "similar_name" }

/-- caseInsVerdict is the verdict object of the case-insensitive check. -/
def caseInsVerdict (r : InvRecord) : Verdict :=
  { isDuplicate := true,
    reason := some "File with same name (case-insensitive) already exists",
    existingFile := some r, duplicateType := some "case_insensitive" }

/-- dupBody is the try-block of `checkForDuplicates`: hash, then the
four findOne checks in source order, any rejection propagating as an
exception. -/
def dupBody (env : DupEnv) (originalName : String) : Except String Verdict :=
  match env.hashOf with
  | .error e => .error e
  | .ok fileHash =>
    match env.findByHash fileHash with
    | .error e => .error e
    | .ok (some r) => .ok (contentVerdict r)
    | .ok none =>
      match env.findByFileName originalName with
      | .error e => .error e
      | .ok (some r) => .ok (filenameVerdict r)
      | .ok none =>
        match env.mkSimilarMatcher (nameWithoutExt originalName) with
        | .error e => .error e
        | .ok m =>
          match env.findByMatcher m with
          | .error e => .error e
          | .ok (some r) => .ok (similarVerdict r)
          | .ok none =>
            match env.mkExactCIMatcher originalName with
            | .error e => .error e
            | .ok m2 =>
              match env.findByMatcher m2 with
              | .error e => .error e
              | .ok (some r) => .ok (caseInsVerdict r)
              | .ok none => .ok { isDuplicate := false }

/-- checkForDuplicates embeds `PdfController.checkForDuplicates`: the
body of sequential checks wrapped in the catch that fails open,
returning a not-duplicate verdict carrying the error message. -/
def checkForDuplicates (env : DupEnv) (originalName : String) : Verdict :=
  match dupBody env originalName with
  | .ok v => v
  | .error e => { isDuplicate := false, error := some e }

/-- lowerEq compares two strings case-insensitively (the `'i'` flag). -/
def lowerEq (a b : String) : Bool := jsToLowerCase a == jsToLowerCase b

/-- extTailOk is the `\.[^/.]+$` tail of the constructed pattern: a
dot, then a nonempty extension containing neither '.' nor '/'. -/
def extTailOk : List Char → Bool
  | '.' :: ext => !ext.isEmpty && ext.all (fun c => c != '.' && c != '/')
  | _ => false

/-- similarNameMatch is the claim's check-3 predicate, taken literally:
the stored name is the candidate's stem (compared case-insensitively as
plain text, no wildcard) followed by a dot and a nonempty extension
containing neither '.' nor '/'. -/
def similarNameMatch (stem subject : String) : Bool :=
  let n := stem.data.length
  lowerEq ⟨subject.data.take n⟩ stem && extTailOk (subject.data.drop n)

/-- caseInsNameMatch is the claim's check-4 predicate, taken literally:
a case-insensitive full-name equality. -/
def caseInsNameMatch (pat subject : String) : Bool := lowerEq subject pat

/-- atomMatch is the ECMAScript matching of one single-character regex
atom under the `'i'` flag: the `.` atom matches any character except a
line terminator; an ordinary character matches case-insensitively. -/
def atomMatch (p c : Char) : Bool :=
  if p == '.' then !(c == '\n' || c == '\r' || c == '\u2028' || c == '\u2029')
  else Char.toLower p == Char.toLower c

/-- atomsConsume matches a sequence of single-character atoms against
the head of the subject, returning the unconsumed rest. -/
def atomsConsume : List Char → List Char → Option (List Char)
  | [], rest => some rest
  | _ :: _, [] => none
  | p :: ps, c :: cs => if atomMatch p c then atomsConsume ps cs else none

/-- jsRegexOrdinary holds for characters that are not ECMAScript regex
syntax characters (and not '.'): inside a pattern they stand for
themselves. -/
def jsRegexOrdinary (c : Char) : Bool :=
  !(c == '\\' || c == '^' || c == '$' || c == '.' || c == '*' || c == '+' ||
    c == '?' || c == '(' || c == ')' || c == '[' || c == ']' || c == '{' ||
    c == '}' || c == '|')

/-- patternFragmentOk delimits the spliced-name fragment this model
realises exactly: every character ordinary or '.'.  Such a name spliced
into `^…\.[^/.]+$` or `^…$` is a valid pattern consisting of
single-character atoms, with each '.' the any-character wildcard; a
name outside the fragment can introduce quantifiers, classes, groups,
or make the pattern invalid (e.g. an unbalanced parenthesis throws). -/
def patternFragmentOk (s : String) : Bool :=
  s.data.all (fun c => jsRegexOrdinary c || c == '.')

/-- similarPatternMatch is the ECMAScript semantics of the constructed
pattern `^stem\.[^/.]+$` with the `'i'` flag, for stems inside the
fragment: the stem's atoms ('.' as wildcard), then a literal dot, then
a nonempty extension containing neither '.' nor '/'. -/
def similarPatternMatch (stem subject : String) : Bool :=
  match atomsConsume stem.data subject.data with
  | some rest => extTailOk rest
  | none => false

/-- fullPatternMatch is the ECMAScript semantics of the constructed
pattern `^name$` with the `'i'` flag, for names inside the fragment:
the name's atoms ('.' as wildcard) must consume the whole subject. -/
def fullPatternMatch (pat subject : String) : Bool :=
  atomsConsume pat.data subject.data == some []

/-- rejectPattern models a `new RegExp` construction that throws a
SyntaxError. -/
def rejectPattern : String → Except String (String → Bool) :=
  fun _ => .error "Invalid regular expression"

/-- mkRegexStoreEnv instantiates the fallible collaborators with a
concrete record store and digest: every lookup succeeds (`findOne`
returning the first matching record in store order), and the `new
RegExp` constructions follow the source's unescaped splice — on the
fragment of names whose characters are ordinary or '.', construction
succeeds with the wildcard semantics above; outside the fragment the
construction's outcome (a wider regex, or a throw on an invalid
pattern) is whatever the given fallbacks say, since this model does not
realise it. -/
def mkRegexStoreEnv (store : List InvRecord) (digest : String)
    (fbSimilar fbFull : String → Except String (String → Bool)) : DupEnv :=
  { hashOf := .ok digest,
    findByHash := fun h => .ok (store.find? (fun r => r.fileHash == h)),
    findByFileName := fun n => .ok (store.find? (fun r => r.fileName == n)),
    mkSimilarMatcher := fun stem =>
      if patternFragmentOk stem then .ok (fun subj => similarPatternMatch stem subj)
      else fbSimilar stem,
    mkExactCIMatcher := fun pat =>
      if patternFragmentOk pat then .ok (fun subj => fullPatternMatch pat subj)
      else fbFull pat,
    findByMatcher := fun m => .ok (store.find? (fun r => m r.fileName)) }

/-- DupOutcome is the observable part of a verdict: not-duplicate, or
duplicate with a reason tag and the conflicting record. -/
inductive DupOutcome where
  | notDup
  | dup (tag : String) (r : InvRecord)
deriving DecidableEq

/-- verdictOutcome projects a verdict to its observable outcome. -/
def verdictOutcome (v : Verdict) : DupOutcome :=
  match v.isDuplicate, v.duplicateType, v.existingFile with
  | true, some tag, some r => .dup tag r
  | _, _, _ => .notDup

/-- specDupChecks is the claim's ordered check list with its reason
tags, its predicates read literally: exact content digest, exact
(case-sensitive) filename, candidate stem equality with any extension,
case-insensitive full-name equality. -/
def specDupChecks (digest name : String) : List ((InvRecord → Bool) × String) :=
  [ (fun r => r.fileHash == digest, "content"),
    (fun r => r.fileName == name, "filename"),
    (fun r => similarNameMatch (nameWithoutExt name) r.fileName, "similar_name"),
    (fun r => caseInsNameMatch name r.fileName, "case_insensitive") ]

/-- regexDupChecks is the check list the code actually evaluates:
checks 3 and 4 match the stored names against the constructed patterns,
'.' acting as a wildcard. -/
def regexDupChecks (digest name : String) : List ((InvRecord → Bool) × String) :=
  [ (fun r => r.fileHash == digest, "content"),
    (fun r => r.fileName == name, "filename"),
    (fun r => similarPatternMatch (nameWithoutExt name) r.fileName, "similar_name"),
    (fun r => fullPatternMatch name r.fileName, "case_insensitive") ]

/-- firstDupHit applies an ordered check list to the store, the first
check with a matching record winning. -/
def firstDupHit : List ((InvRecord → Bool) × String) → List InvRecord → DupOutcome
  | [], _ => .notDup
  | (p, tag) :: rest, store =>
    match store.find? p with
    | some r => .dup tag r
    | none => firstDupHit rest store

theorem patternFragmentOk_nameWithoutExt (s : String)
    (h : patternFragmentOk s = true) :
    patternFragmentOk (nameWithoutExt s) = true := by
  simp only [nameWithoutExt]
  split
  next before heq =>
    split
    · exact h
    · simp only [patternFragmentOk, List.all_eq_true] at h ⊢
      intro x hx
      apply h
      have hx1 : x ∈ before := by simpa using hx
      have hx2 : x ∈ s.data.reverse := by
        have hx3 : x ∈ '.' :: before := List.mem_cons_of_mem _ hx1
        rw [← heq] at hx3
        exact List.mem_of_mem_drop hx3
      simpa using hx2
  next => exact h

theorem atomsConsume_ordinary (ps : List Char) :
    ∀ subj : List Char, ps.all jsRegexOrdinary = true →
      atomsConsume ps subj =
        if (subj.take ps.length).map Char.toLower = ps.map Char.toLower then
          some (subj.drop ps.length)
        else none := by
  induction ps with
  | nil => intro subj _; simp [atomsConsume]
  | cons p ps ih =>
    intro subj hall
    simp only [List.all_cons, Bool.and_eq_true] at hall
    cases subj with
    | nil => simp [atomsConsume]
    | cons c cs =>
      have hne : (p == '.') = false := by
        cases hpp : p == '.' with
        | false => rfl
        | true =>
          have hp : p = '.' := by simpa using hpp
          subst hp
          exact absurd hall.1 (by decide)
      have hatom : atomMatch p c = (Char.toLower p == Char.toLower c) := by
        simp [atomMatch, hne]
      by_cases hlc : Char.toLower p = Char.toLower c
      · have ht : atomMatch p c = true := by
          rw [hatom]
          exact beq_iff_eq.mpr hlc
        rw [show atomsConsume (p :: ps) (c :: cs) = atomsConsume ps cs by
          simp [atomsConsume, ht]]
        rw [ih cs hall.2]
        have hcond : (((c :: cs).take (p :: ps).length).map Char.toLower =
            (p :: ps).map Char.toLower) ↔
            ((cs.take ps.length).map Char.toLower = ps.map Char.toLower) := by
          simp [List.take_succ_cons, hlc]
        by_cases hrest : (cs.take ps.length).map Char.toLower = ps.map Char.toLower
        · rw [if_pos hrest, if_pos (hcond.mpr hrest)]
          rfl
        · rw [if_neg hrest, if_neg (fun hcc => hrest (hcond.mp hcc))]
      · have ht : atomMatch p c = false := by
          rw [hatom]
          exact beq_eq_false_iff_ne.mpr hlc
        rw [show atomsConsume (p :: ps) (c :: cs) = none by
          simp [atomsConsume, ht]]
        have hcc : ¬(((c :: cs).take (p :: ps).length).map Char.toLower =
            (p :: ps).map Char.toLower) := by
          intro hcc2
          rw [List.length_cons, List.take_succ_cons, List.map_cons,
            List.map_cons] at hcc2
          exact hlc ((List.cons.injEq _ _ _ _).mp hcc2).1.symm
        rw [if_neg hcc]

theorem similarPatternMatch_ordinary (stem subject : String)
    (h : stem.data.all jsRegexOrdinary = true) :
    similarPatternMatch stem subject = similarNameMatch stem subject := by
  simp only [similarPatternMatch, similarNameMatch]
  rw [atomsConsume_ordinary stem.data subject.data h]
  by_cases hc : (subject.data.take stem.data.length).map Char.toLower =
      stem.data.map Char.toLower
  · rw [if_pos hc]
    have hl : lowerEq ⟨subject.data.take stem.data.length⟩ stem = true := by
      simp only [lowerEq, jsToLowerCase, beq_iff_eq, String.ext_iff]
      exact hc
    rw [hl]
    simp
  · rw [if_neg hc]
    have hl : lowerEq ⟨subject.data.take stem.data.length⟩ stem = false := by
      simp only [lowerEq, jsToLowerCase, beq_eq_false_iff_ne, ne_eq, String.ext_iff]
      exact hc
    rw [hl]
    simp

theorem fullPatternMatch_ordinary (pat subject : String)
    (h : pat.data.all jsRegexOrdinary = true) :
    fullPatternMatch pat subject = caseInsNameMatch pat subject := by
  simp only [fullPatternMatch, caseInsNameMatch]
  rw [atomsConsume_ordinary pat.data subject.data h]
  by_cases hc : (subject.data.take pat.data.length).map Char.toLower =
      pat.data.map Char.toLower
  · rw [if_pos hc]
    by_cases hd : subject.data.drop pat.data.length = []
    · have he : subject.data.map Char.toLower = pat.data.map Char.toLower := by
        have hlen : subject.data.length ≤ pat.data.length :=
          List.drop_eq_nil_iff.mp hd
        calc subject.data.map Char.toLower
            = (subject.data.take pat.data.length).map Char.toLower := by
              rw [List.take_of_length_le hlen]
          _ = pat.data.map Char.toLower := hc
      have hl : lowerEq subject pat = true := by
        simp only [lowerEq, jsToLowerCase, beq_iff_eq, String.ext_iff]
        exact he
      rw [hl, hd]
      rfl
    · have he : ¬subject.data.map Char.toLower = pat.data.map Char.toLower := by
        intro habs
        apply hd
        have hlen : subject.data.length = pat.data.length := by
          have hlm := congrArg List.length habs
          simpa using hlm
        exact List.drop_eq_nil_iff.mpr (le_of_eq hlen)
      have hl : lowerEq subject pat = false := by
        simp only [lowerEq, jsToLowerCase, beq_eq_false_iff_ne, ne_eq,
          String.ext_iff]
        exact he
      rw [hl]
      refine beq_eq_false_iff_ne.mpr ?_
      simp only [ne_eq, Option.some.injEq]
      exact hd
  · rw [if_neg hc]
    have he : ¬subject.data.map Char.toLower = pat.data.map Char.toLower := by
      intro habs
      apply hc
      have hlen : subject.data.length = pat.data.length := by
        have hlm := congrArg List.length habs
        simpa using hlm
      rw [List.take_of_length_le (le_of_eq hlen)]
      exact habs
    have hl : lowerEq subject pat = false := by
      simp only [lowerEq, jsToLowerCase, beq_eq_false_iff_ne, ne_eq,
        String.ext_iff]
      exact he
    rw [hl]
    rfl

/-- Counterexample to C3 as stated: the candidate name is spliced into
the pattern unescaped, so for "report.v1.pdf" check 3 builds
`^report.v1\.[^/.]+$` in which the '.' of the stem is the any-character
wildcard — a stored "reportxv1.txt", whose stem "reportxv1" does NOT
equal the candidate's stem "report.v1", is nevertheless reported a
similar_name duplicate, while the claim's four literal checks yield
not-duplicate. -/
theorem c3_counterexample :
    verdictOutcome (checkForDuplicates
        (mkRegexStoreEnv [⟨"reportxv1.txt", "h2"⟩] "h1" rejectPattern rejectPattern)
        "report.v1.pdf") =
      DupOutcome.dup "similar_name" ⟨"reportxv1.txt", "h2"⟩ ∧
    similarNameMatch (nameWithoutExt "report.v1.pdf") "reportxv1.txt" = false ∧
    firstDupHit (specDupChecks "h1" "report.v1.pdf") [⟨"reportxv1.txt", "h2"⟩] =
      DupOutcome.notDup ∧
    verdictOutcome (checkForDuplicates
        (mkRegexStoreEnv [⟨"reportxv1.txt", "h2"⟩] "h1" rejectPattern rejectPattern)
        "report.v1.pdf") ≠
      firstDupHit (specDupChecks "h1" "report.v1.pdf") [⟨"reportxv1.txt", "h2"⟩] := by
  refine ⟨by decide, by decide, by decide, by decide⟩

/-- C3 amended: the verdict is the first hit of the four checks in the
fixed order content, filename, similar_name, case_insensitive (else
not-duplicate), but checks 3 and 4 match the stored names against the
pattern built from the UNESCAPED candidate name: for names made of
ordinary characters and '.', each '.' matches as the any-character
wildcard, and the checks coincide with the claim's literal stem /
full-name equality exactly when the name contains no regex
metacharacter at all (in particular no '.'); names outside that
fragment can widen the checks further or make the constructed pattern
invalid, which aborts the check to the fail-open not-duplicate verdict
(see C10). -/
theorem c3_amended :
    (∀ (store : List InvRecord) (digest name : String)
        (fb1 fb2 : String → Except String (String → Bool)),
      patternFragmentOk name = true →
      verdictOutcome (checkForDuplicates (mkRegexStoreEnv store digest fb1 fb2) name) =
        firstDupHit (regexDupChecks digest name) store) ∧
    (∀ stem subject : String, stem.data.all jsRegexOrdinary = true →
      similarPatternMatch stem subject = similarNameMatch stem subject) ∧
    (∀ pat subject : String, pat.data.all jsRegexOrdinary = true →
      fullPatternMatch pat subject = caseInsNameMatch pat subject) := by
  refine ⟨?_, similarPatternMatch_ordinary, fullPatternMatch_ordinary⟩
  intro store digest name fb1 fb2 hfrag
  have hfragStem : patternFragmentOk (nameWithoutExt name) = true :=
    patternFragmentOk_nameWithoutExt name hfrag
  simp only [checkForDuplicates, dupBody, mkRegexStoreEnv, regexDupChecks,
    firstDupHit, hfragStem, hfrag, if_true]
  cases h1 : store.find? (fun r => r.fileHash == digest) with
  | some r => simp [h1, verdictOutcome, contentVerdict]
  | none =>
    simp only [h1]
    cases h2 : store.find? (fun r => r.fileName == name) with
    | some r => simp [h2, verdictOutcome, filenameVerdict]
    | none =>
      simp only [h2]
      cases h3 : store.find?
          (fun r => similarPatternMatch (nameWithoutExt name) r.fileName) with
      | some r => simp [h3, verdictOutcome, similarVerdict]
      | none =>
        simp only [h3]
        cases h4 : store.find? (fun r => fullPatternMatch name r.fileName) with
        | some r => simp [h4, verdictOutcome, caseInsVerdict]
        | none => simp [h4, verdictOutcome]

/-- Witness for C3 amended on a concrete input inside the fragment: for
candidate "report.pdf" against a store holding "REPORT.TXT", the code's
check list and the refined first-hit evaluation agree (a similar_name
hit, the stem matching case-insensitively). -/
theorem c3_amended_witness :
    verdictOutcome (checkForDuplicates
        (mkRegexStoreEnv [⟨"REPORT.TXT", "h9"⟩] "h1" rejectPattern rejectPattern)
        "report.pdf") =
      firstDupHit (regexDupChecks "h1" "report.pdf") [⟨"REPORT.TXT", "h9"⟩] :=
  c3_amended.1 [⟨"REPORT.TXT", "h9"⟩] "h1" "report.pdf" rejectPattern rejectPattern
    (by decide)

/-- failOpenVerdict is the catch-branch verdict:
`{ isDuplicate: false, error: error.message }`. -/
def failOpenVerdict (e : String) : Verdict :=
  { isDuplicate := false, error := some e }

/-- C4: if any of the four storage lookups of the duplicate check
rejects (at the point it is reached), the check returns the fail-open
not-duplicate verdict carrying the error message — it never propagates
the storage error, so ingestion of the item proceeds. -/
theorem c4_duplicate_check_storage_error (env : DupEnv) (name h e : String)
    (m m2 : String → Bool) :
    (env.hashOf = .ok h → env.findByHash h = .error e →
      checkForDuplicates env name = failOpenVerdict e) ∧
    (env.hashOf = .ok h → env.findByHash h = .ok none →
      env.findByFileName name = .error e →
      checkForDuplicates env name = failOpenVerdict e) ∧
    (env.hashOf = .ok h → env.findByHash h = .ok none →
      env.findByFileName name = .ok none →
      env.mkSimilarMatcher (nameWithoutExt name) = .ok m →
      env.findByMatcher m = .error e →
      checkForDuplicates env name = failOpenVerdict e) ∧
    (env.hashOf = .ok h → env.findByHash h = .ok none →
      env.findByFileName name = .ok none →
      env.mkSimilarMatcher (nameWithoutExt name) = .ok m →
      env.findByMatcher m = .ok none →
      env.mkExactCIMatcher name = .ok m2 →
      env.findByMatcher m2 = .error e →
      checkForDuplicates env name = failOpenVerdict e) := by
  refine ⟨?_, ?_, ?_, ?_⟩
  · intro h1 h2
    simp [checkForDuplicates, dupBody, h1, h2, failOpenVerdict]
  · intro h1 h2 h3
    simp [checkForDuplicates, dupBody, h1, h2, h3, failOpenVerdict]
  · intro h1 h2 h3 h4 h5
    simp [checkForDuplicates, dupBody, h1, h2, h3, h4, h5, failOpenVerdict]
  · intro h1 h2 h3 h4 h5 h6 h7
    simp [checkForDuplicates, dupBody, h1, h2, h3, h4, h5, h6, h7, failOpenVerdict]

/-- dupEnvStorageError is a concrete environment whose first storage
lookup rejects with a database error. -/
def dupEnvStorageError : DupEnv :=
  { hashOf := .ok "d41d8cd98f00b204e9800998ecf8427e",
    findByHash := fun _ => .error "MongoNetworkError",
    findByFileName := fun _ => .error "MongoNetworkError",
    mkSimilarMatcher := fun stem => .ok (fun subj => similarNameMatch stem subj),
    mkExactCIMatcher := fun pat => .ok (fun subj => caseInsNameMatch pat subj),
    findByMatcher := fun _ => .error "MongoNetworkError" }

/-- Witness for C4: a rejected digest lookup yields the fail-open
not-duplicate verdict with the error recorded. -/
theorem c4_duplicate_check_storage_error_witness :
    checkForDuplicates dupEnvStorageError "invoice.pdf" =
      failOpenVerdict "MongoNetworkError" :=
  (c4_duplicate_check_storage_error dupEnvStorageError "invoice.pdf"
    "d41d8cd98f00b204e9800998ecf8427e" "MongoNetworkError"
    (fun _ => true) (fun _ => true)).1 rfl rfl

/-- C10: the duplicate check is total — the try/catch returns the
body's verdict when it succeeds and maps EVERY internal error (hash
read failure, storage rejection, invalid constructed pattern from an
unescaped name such as one with an unbalanced parenthesis) to the
fail-open not-duplicate verdict, never an exception. -/
theorem c10_duplicate_check_total (env : DupEnv) (name : String) :
    (∀ v, dupBody env name = .ok v → checkForDuplicates env name = v) ∧
    (∀ e, dupBody env name = .error e →
      checkForDuplicates env name = failOpenVerdict e) ∧
    (∀ h e, env.hashOf = .ok h → env.findByHash h = .ok none →
      env.findByFileName name = .ok none →
      env.mkSimilarMatcher (nameWithoutExt name) = .error e →
      checkForDuplicates env name = failOpenVerdict e) ∧
    (∀ e, env.hashOf = .error e →
      checkForDuplicates env name = failOpenVerdict e) := by
  refine ⟨?_, ?_, ?_, ?_⟩
  · intro v hv
    simp [checkForDuplicates, hv]
  · intro e he
    simp [checkForDuplicates, he, failOpenVerdict]
  · intro h e h1 h2 h3 h4
    simp [checkForDuplicates, dupBody, h1, h2, h3, h4, failOpenVerdict]
  · intro e h1
    simp [checkForDuplicates, dupBody, h1, failOpenVerdict]

/-- dupEnvBadPattern is a concrete environment for a candidate named
"file(.pdf": the stem "file(" spliced unescaped into
`new RegExp("^file(\\.[^/.]+$", "i")` leaves an unterminated group, so
the construction throws and the lookups before it succeed with no hit. -/
def dupEnvBadPattern : DupEnv :=
  { hashOf := .ok "9e107d9d372bb6826bd81d3542a419d6",
    findByHash := fun _ => .ok none,
    findByFileName := fun _ => .ok none,
    mkSimilarMatcher := fun _ => .error "Invalid regular expression",
    mkExactCIMatcher := fun _ => .error "Invalid regular expression",
    findByMatcher := fun _ => .ok none }

/-- Witness for C10: an invalid constructed pattern (unbalanced
parenthesis in the name) yields the fail-open not-duplicate verdict. -/
theorem c10_duplicate_check_total_witness :
    checkForDuplicates dupEnvBadPattern "file(.pdf" =
      failOpenVerdict "Invalid regular expression" :=
  (c10_duplicate_check_total dupEnvBadPattern "file(.pdf").2.2.1
    "9e107d9d372bb6826bd81d3542a419d6" "Invalid regular expression"
    rfl rfl rfl rfl

/-! ## BatchCoordinator dispatch loop
(src/controllers/pdfController.js lines 371-558, with the cancel /
pause / resume endpoints lines 1089-1173 mutating the flags). -/

/-- CoordObs is one observation of the shared upload-state flags
(`global.uploadStates[uploadId]`), as read at a check point. -/
structure CoordObs where
  paused : Bool
  cancelled : Bool

/-- pollPause models the pause loop
`while (isPaused && !isCancelled) await sleep(100)`: each poll reads the
flags at the next tick; it returns the tick of the exiting read.  Fuel
bounds the modelled execution, `none` meaning the loop was still paused
when fuel ran out. -/
def pollPause (tr : Nat → CoordObs) : Nat → Nat → Option Nat
  | _, 0 => none
  | t, fuel + 1 =>
    if (tr t).paused && !(tr t).cancelled then pollPause tr (t + 1) fuel
    else some t

/-- runFrom models the window-dispatch loop of `uploadPdfs`
(`for (i = 0; i < n && !cancelled; i += batchSize)`): each iteration
reads the cancelled flag, runs the pause poll, re-reads the cancelled
flag (breaking if set), then dispatches the window `[i, i+batchSize)`
whose items all settle and are counted before the next iteration.  It
returns the dispatched windows as (gate tick, length) pairs, the settled
item count, and whether the run exited through a cancellation check. -/
def runFrom (tr : Nat → CoordObs) (n bs : Nat) :
    Nat → Nat → Nat → List (Nat × Nat) → Nat →
      Option (List (Nat × Nat) × Nat × Bool)
  | 0, _, _, _, _ => none
  | fuel + 1, i, t, acc, cnt =>
    if i < n then
      if (tr t).cancelled then some (acc.reverse, cnt, true)
      else
        match pollPause tr (t + 1) (fuel + 1) with
        | none => none
        | some t1 =>
          if (tr (t1 + 1)).cancelled then some (acc.reverse, cnt, true)
          else
            runFrom tr n bs fuel (i + bs) (t1 + 3)
              ((t1 + 1, min bs (n - i)) :: acc) (cnt + min bs (n - i))
    else some (acc.reverse, cnt, false)

/-- coordinatorRun runs the dispatch loop from the start of the batch. -/
def coordinatorRun (tr : Nat → CoordObs) (n bs fuel : Nat) :
    Option (List (Nat × Nat) × Nat × Bool) :=
  runFrom tr n bs fuel 0 0 [] 0

theorem pollPause_spec (tr : Nat → CoordObs) :
    ∀ fuel t t1, pollPause tr t fuel = some t1 →
      t ≤ t1 ∧
      (∀ u, t ≤ u → u < t1 → (tr u).paused = true ∧ (tr u).cancelled = false) ∧
      ((tr t1).paused = false ∨ (tr t1).cancelled = true) := by
  intro fuel
  induction fuel with
  | zero => intro t t1 h; cases h
  | succ f ih =>
    intro t t1 h
    unfold pollPause at h
    by_cases hc : ((tr t).paused && !(tr t).cancelled) = true
    · rw [if_pos hc] at h
      obtain ⟨hle, hmid, hend⟩ := ih (t + 1) t1 h
      refine ⟨by omega, ?_, hend⟩
      intro u hu1 hu2
      rcases Nat.eq_or_lt_of_le hu1 with rfl | hlt
      · simp only [Bool.and_eq_true, Bool.not_eq_true'] at hc
        exact ⟨hc.1, hc.2⟩
      · exact hmid u (by omega) hu2
    · rw [if_neg hc] at h
      injection h with h1
      subst h1
      refine ⟨Nat.le_refl t,
        fun u hu1 hu2 => absurd (Nat.lt_of_le_of_lt hu1 hu2) (Nat.lt_irrefl t), ?_⟩
      simp only [Bool.and_eq_true, Bool.not_eq_true', not_and] at hc
      by_cases hp : (tr t).paused = true
      · cases hcc : (tr t).cancelled with
        | true => exact Or.inr rfl
        | false => exact absurd hcc (hc hp)
      · exact Or.inl (by simpa using hp)

theorem runFrom_spec (tr : Nat → CoordObs) (n bs : Nat) :
    ∀ fuel i t acc cnt ws c b, runFrom tr n bs fuel i t acc cnt = some (ws, c, b) →
      ∃ ext, ws = acc.reverse ++ ext ∧
        c = cnt + (ext.map Prod.snd).sum ∧
        ∀ g l, (g, l) ∈ ext → (tr g).cancelled = false := by
  intro fuel
  induction fuel with
  | zero => intro i t acc cnt ws c b h; cases h
  | succ f ih =>
    intro i t acc cnt ws c b h
    unfold runFrom at h
    split at h
    · split at h
      · simp only [Option.some_inj, Prod.mk.injEq] at h
        obtain ⟨rfl, rfl, rfl⟩ := h
        exact ⟨[], by simp, by simp, by simp⟩
      · split at h
        · cases h
        · next t1 hpoll =>
          split at h
          · next hcan2 =>
            simp only [Option.some_inj, Prod.mk.injEq] at h
            obtain ⟨rfl, rfl, rfl⟩ := h
            exact ⟨[], by simp, by simp, by simp⟩
          · next hcan2 =>
            obtain ⟨ext, hws, hc, hg⟩ := ih _ _ _ _ _ _ _ h
            refine ⟨(t1 + 1, min bs (n - i)) :: ext, ?_, ?_, ?_⟩
            · rw [hws]; simp
            · rw [hc]; simp; omega
            · intro g l hgl
              rcases List.mem_cons.1 hgl with heq | hmem
              · cases heq
                simpa using hcan2
              · exact hg g l hmem
    · simp only [Option.some_inj, Prod.mk.injEq] at h
      obtain ⟨rfl, rfl, rfl⟩ := h
      exact ⟨[], by simp, by simp, by simp⟩

/-- C5: for every flag trace, if the dispatch loop completes then
(1) the settled count equals the total size of the dispatched windows —
every item of every dispatched window settles and is counted;
(2) every dispatched window was gated on an observation with the
cancelled flag unset, so once the cancelled flag is set (and stays set,
cancel being one-way) no further window is dispatched — in particular a
pause that is cancelled out of dispatches nothing further; and
(3) the pause poll blocks exactly over reads with paused set and
cancelled unset, re-checking cancellation at every poll, and exits only
on unpaused or cancelled. -/
theorem c5_cancel_pause_dispatch (tr : Nat → CoordObs) (n bs fuel : Nat)
    (ws : List (Nat × Nat)) (cnt : Nat) (b : Bool)
    (hrun : coordinatorRun tr n bs fuel = some (ws, cnt, b)) :
    (cnt = (ws.map Prod.snd).sum) ∧
    (∀ g l, (g, l) ∈ ws → (tr g).cancelled = false) ∧
    (∀ T, (∀ u, T ≤ u → (tr u).cancelled = true) →
      ∀ g l, (g, l) ∈ ws → g < T) ∧
    (∀ t f t1, pollPause tr t f = some t1 →
      (∀ u, t ≤ u → u < t1 → (tr u).paused = true ∧ (tr u).cancelled = false) ∧
      ((tr t1).paused = false ∨ (tr t1).cancelled = true)) := by
  obtain ⟨ext, hws, hc, hg⟩ := runFrom_spec tr n bs fuel 0 0 [] 0 ws cnt b hrun
  simp only [List.reverse_nil, List.nil_append] at hws
  subst hws
  refine ⟨by simpa using hc, hg, ?_, ?_⟩
  · intro T hT g l hgl
    by_contra hge
    have hTg : T ≤ g := by omega
    have := hT g hTg
    rw [hg g l hgl] at this
    cases this
  · intro t f t1 hpoll
    obtain ⟨_, hmid, hend⟩ := pollPause_spec tr f t t1 hpoll
    exact ⟨hmid, hend⟩

/-- trPauseCancel is a concrete flag trace: paused from tick 4 onward,
cancelled from tick 8 onward (pause requested mid-run, then cancel). -/
def trPauseCancel : Nat → CoordObs :=
  fun k => { paused := decide (4 ≤ k), cancelled := decide (8 ≤ k) }

/-- Witness for C5 on a concrete run: 30 items in windows of 15, paused
during the first window, then cancelled — only the first window (gated
at tick 2) is dispatched, its 15 items settle and are counted, and the
run exits cancelled. -/
theorem c5_cancel_pause_dispatch_witness :
    coordinatorRun trPauseCancel 30 15 10 = some ([(2, 15)], 15, true) ∧
    (15 : Nat) = (([(2, 15)] : List (Nat × Nat)).map Prod.snd).sum ∧
    (trPauseCancel 2).cancelled = false := by
  have hrun : coordinatorRun trPauseCancel 30 15 10 = some ([(2, 15)], 15, true) := by
    decide
  have h := c5_cancel_pause_dispatch trPauseCancel 30 15 10 [(2, 15)] 15 true hrun
  exact ⟨hrun, h.1, h.2.1 2 15 (by simp)⟩

/-! ## ArchiveExpander (src/controllers/pdfController.js,
extractPdfsFromZip lines 193-228, and its caller in uploadPdfs lines
281-345) -/

/-- ZEntryType is the `type` tag of an archive entry ('File' or
'Directory'). -/
inductive ZEntryType where
  | file
  | dir
deriving DecidableEq

/-- ZEntry is one archive entry as enumerated by `unzipper.Open`. -/
structure ZEntry where
  typ : ZEntryType
  path : String
deriving DecidableEq

/-- basenameModel models Node's `path.basename`: the part after the
last '/'. -/
def basenameModel (p : String) : String :=
  ⟨(p.data.reverse.takeWhile (fun c => c != '/')).reverse⟩

/-- extnameModel models Node's `path.extname`: the suffix of the
basename starting at its last dot, empty when the basename has no dot
or only a leading dot. -/
def extnameModel (p : String) : String :=
  let bn := (basenameModel p).data
  let revExt := bn.reverse.takeWhile (fun c => c != '.')
  if revExt.length < bn.length && revExt.length + 1 < bn.length then
    ⟨'.' :: revExt.reverse⟩
  else ""

/-- zipEntryIsPdf models the extraction filter
`file.type === 'File' && path.extname(file.path).toLowerCase() === '.pdf'`. -/
def zipEntryIsPdf (e : ZEntry) : Bool :=
  e.typ == ZEntryType.file && jsToLowerCase (extnameModel e.path) == ".pdf"

/-- ZipResult is the return of a successful expansion: the extracted
entries' original names, and whether the source ZIP was deleted inside
the helper (`fs.unlinkSync(zipFilePath)` before returning). -/
structure ZipResult where
  extracted : List String
  zipDeleted : Bool
deriving DecidableEq

/-- extractPdfsFromZipM models `extractPdfsFromZip`: a successfully
opened archive yields exactly its File-typed `.pdf`-named entries (by
basename) and the ZIP is unlinked before returning; a failed open
throws without deleting. -/
def extractPdfsFromZipM (openResult : Except String (List ZEntry)) :
    Except String ZipResult :=
  match openResult with
  | .error e => .error e
  | .ok entries =>
    .ok { extracted := (entries.filter zipEntryIsPdf).map
            (fun e => basenameModel e.path),
          zipDeleted := true }

/-- ZipHandling is the caller-visible outcome for one archive item:
the extracted names or the error entry recorded in the batch results,
and whether the archive's temporary bytes ended up removed. -/
structure ZipHandling where
  outcome : Except String (List String)
  zipFinallyDeleted : Bool

/-- handleZipFile models the ZIP branch of `uploadPdfs`: on success the
extracted names are kept and a ZIP file still on disk is unlinked; on
failure the catch block unlinks the ZIP and records an error result. -/
def handleZipFile (openResult : Except String (List ZEntry)) : ZipHandling :=
  match extractPdfsFromZipM openResult with
  | .ok r =>
    { outcome := .ok r.extracted,
      zipFinallyDeleted := if r.zipDeleted then true else true }
  | .error e =>
    { outcome := .error ("Failed to extract ZIP file: " ++ e),
      zipFinallyDeleted := true }

/-- C8: expansion of a readable archive yields exactly the File-typed
entries whose name has a `.pdf` extension compared case-insensitively
(everything else silently skipped), and whether expansion succeeds or
fails the archive's own temporary bytes are removed afterwards (by the
helper on success, by the caller's catch on failure). -/
theorem c8_zip_expansion (entries : List ZEntry) (err : String) :
    ((handleZipFile (.ok entries)).outcome =
      .ok ((entries.filter zipEntryIsPdf).map (fun e => basenameModel e.path))) ∧
    (∀ name, name ∈ (entries.filter zipEntryIsPdf).map (fun e => basenameModel e.path) ↔
      ∃ e ∈ entries, zipEntryIsPdf e = true ∧ basenameModel e.path = name) ∧
    ((handleZipFile (.ok entries)).zipFinallyDeleted = true) ∧
    ((handleZipFile (.error err)).zipFinallyDeleted = true) ∧
    ((handleZipFile (.error err)).outcome =
      .error ("Failed to extract ZIP file: " ++ err)) := by
  refine ⟨rfl, ?_, rfl, rfl, rfl⟩
  intro name
  simp [List.mem_map, List.mem_filter, and_assoc]

/-- zEntriesExample is an archive with three PDF entries (one
upper-cased, one inside a folder) and three non-PDF or directory
entries. -/
def zEntriesExample : List ZEntry :=
  [ { typ := ZEntryType.file, path := "report.PDF" },
    { typ := ZEntryType.dir, path := "docs/" },
    { typ := ZEntryType.file, path := "notes.txt" },
    { typ := ZEntryType.file, path := "docs/scan.pdf" },
    { typ := ZEntryType.dir, path := "archive.pdf" },
    { typ := ZEntryType.file, path := "readme" } ]

/-- Witness for C8: the example archive expands to exactly its two
File-typed .pdf entries, and the archive is deleted in both the success
and the failure outcome. -/
theorem c8_zip_expansion_witness :
    (handleZipFile (.ok zEntriesExample)).outcome =
      .ok ["report.PDF", "scan.pdf"] ∧
    (handleZipFile (.ok zEntriesExample)).zipFinallyDeleted = true ∧
    (handleZipFile (.error "invalid central directory")).zipFinallyDeleted = true := by
  have h := c8_zip_expansion zEntriesExample "invalid central directory"
  refine ⟨?_, h.2.2.1, h.2.2.2.1⟩
  rw [h.1]
  exact congrArg Except.ok (by decide)

/-! ## Batch summary (src/controllers/pdfController.js lines 317-345
and 552-591) -/

/-- BatchResultEntry is one element of the `results` array at summary
time: a settled window item (`status` "fulfilled" carrying its value's
own status field, or "rejected"), or the plain `status: 'error'` object
pushed directly when a ZIP extraction failed. -/
structure BatchResultEntry where
  status : String
  valueStatus : Option String
deriving DecidableEq

/-- successfulCount models `results.filter(r => r.status === 'fulfilled'
&& r.value.status !== 'duplicate').length`. -/
def successfulCount (rs : List BatchResultEntry) : Nat :=
  (rs.filter (fun r =>
    r.status == "fulfilled" && !(r.valueStatus == some "duplicate"))).length

/-- failedCount models
`results.filter(r => r.status === 'rejected').length`. -/
def failedCount (rs : List BatchResultEntry) : Nat :=
  (rs.filter (fun r => r.status == "rejected")).length

/-- duplicateCount models `duplicates.length`: one push per fulfilled
window item whose value has status 'duplicate'. -/
def duplicateCount (rs : List BatchResultEntry) : Nat :=
  (rs.filter (fun r =>
    r.status == "fulfilled" && r.valueStatus == some "duplicate")).length

/-- settledCount counts the entries that came from
`Promise.allSettled` (status "fulfilled" or "rejected"); the
ZIP-failure error entries are neither. -/
def settledCount (rs : List BatchResultEntry) : Nat :=
  (rs.filter (fun r => r.status == "fulfilled" || r.status == "rejected")).length

/-- c1FailingInput is the results array of a batch holding one corrupt
ZIP archive (whose expansion failed) and one successfully processed
PDF. -/
def c1FailingInput : List BatchResultEntry :=
  [ { status := "error", valueStatus := none },
    { status := "fulfilled", valueStatus := some "completed" } ]

/-- C1 (code bug): the three summary counts partition only the settled
entries, so for a batch with one failed archive expansion and one
processed PDF the summary counts 1 + 0 + 0 = 1 while the results array
enumerates 2 outcomes — the failed archive is counted in none of
successful, failed, duplicates (and serialising its entry even throws,
it has no `reason` field), contradicting the claim that every item is
accounted exactly once. -/
theorem c1_batch_summary_drops_zip_failure :
    (∀ rs : List BatchResultEntry,
      successfulCount rs + failedCount rs + duplicateCount rs = settledCount rs) ∧
    (successfulCount c1FailingInput + failedCount c1FailingInput +
        duplicateCount c1FailingInput = 1 ∧
      c1FailingInput.length = 2 ∧ (1 : Nat) ≠ 2) := by
  constructor
  · intro rs
    induction rs with
    | nil => rfl
    | cons a rest ih =>
      simp only [successfulCount, failedCount, duplicateCount, settledCount]
        at ih ⊢
      by_cases h1 : a.status = "fulfilled"
      · by_cases h2 : a.valueStatus = some "duplicate"
        · simp [List.filter_cons, h1, h2]
          omega
        · simp [List.filter_cons, h1, h2]
          omega
      · by_cases h3 : a.status = "rejected"
        · simp [List.filter_cons, h1, h3]
          omega
        · simp [List.filter_cons, h1, h3]
          omega
  · exact ⟨by decide, by decide, by decide⟩
